import Mathlib

/-!
# Pomotodo: shallow embedding of the timer / task-tracker core

This file embeds the state-bearing core of the Pomotodo application
(`pomotodo.py`, `drag_task.py`) in Lean 4 and proves properties of it.

Modelling conventions:
* The mutable fields of `PomodoroAppWithTodo` that the core logic reads and
  writes become the record `AppState`; each Python method that mutates them
  becomes a Lean function `AppState → AppState × List Event` (or with extra
  arguments for the values the method reads from widgets).
* Observable side effects outside the state — playing a sound, showing a
  message box, writing the JSON file — are recorded as `Event`s in the order
  the Python code performs them.  Pure UI refreshes (repainting labels,
  rebuilding the list widget) are not events: they read state but change none.
* Python `str.strip()` is modelled by `pyStrip`, removing ASCII whitespace
  from both ends (the only whitespace relevant to the proofs).
-/

namespace Pomotodo

/-- A to-do entry, mirroring the task dicts stored in `self.tasks`
(`pomotodo.py`, `_add_task`): keys `text`, `estimated`, `completed`, `done`. -/
structure Task where
  text : String
  estimated : Nat
  completed : Nat
  done : Bool
deriving Repr, DecidableEq

/-- The timer phase, mirroring `self.current_state` which ranges over the
strings "pomodoro", "short_break", "long_break". -/
inductive Phase where
  | pomodoro
  | short_break
  | long_break
deriving Repr, DecidableEq

/-- Sound cue identities: `focus_end.mp3` and `break_end.mp3`. -/
inductive SoundCue where
  | focus_end
  | break_end
deriving Repr, DecidableEq

/-- Observable side effects of the core, recorded in program order. -/
inductive Event where
  /-- Event for `_play_sound(media)` with the media selected for the given cue. -/
  | playSound (cue : SoundCue)
  /-- The `QMessageBox.information("Task Completed!", ...)` popup for a task. -/
  | notifyTaskCompleted (text : String)
  /-- A `QMessageBox.warning` validation popup (e.g. "Task description cannot be empty."). -/
  | validationWarning
  /-- Event for `_save_data()`: persist settings and tasks to the JSON file. -/
  | saveData
deriving Repr, DecidableEq

/-- The mutable application state owned by `PomodoroAppWithTodo`: the task
list and active-task index, the timer fields, and the duration settings
(already converted to seconds, as `self.focus_time` etc. are). -/
structure AppState where
  tasks : List Task
  current_task_index : Option Nat
  current_state : Phase
  current_time_left : Nat
  is_running : Bool
  completed_pomodoros_in_cycle : Nat
  focus_time : Nat
  short_break_time : Nat
  long_break_time : Nat
  long_break_interval : Nat
deriving Repr, DecidableEq

/-- The configured duration (seconds) of a phase, as read by
`_update_ui_for_state`: `focus_time` / `short_break_time` / `long_break_time`. -/
def durationFor (s : AppState) : Phase → Nat
  | .pomodoro => s.focus_time
  | .short_break => s.short_break_time
  | .long_break => s.long_break_time

/-- Model of `_toggle_timer_off_if_running` (pomotodo.py:632): stops the timer if it
is running (`is_running := false`); only UI text changes otherwise. -/
def toggle_timer_off_if_running (s : AppState) : AppState :=
  if s.is_running then { s with is_running := false } else s

/-- The state-relevant effect of `_update_ui_for_state` (pomotodo.py:399-407):
besides styling, it resets `current_time_left` to the configured duration of
the current state. -/
def update_ui_for_state (s : AppState) : AppState :=
  { s with current_time_left := durationFor s s.current_state }

/-- Model of `_update_task_progress` (pomotodo.py:569-590): if an active task index is
set and in bounds and the task is not done, increment its `completed`; when
`completed` reaches `estimated`, mark it done, show the completion popup and
clear the active index; save afterwards.  Otherwise do nothing. -/
def update_task_progress (s : AppState) : AppState × List Event :=
  match s.current_task_index with
  | none => (s, [])
  | some idx =>
    if h : idx < s.tasks.length then
      let task := s.tasks.get ⟨idx, h⟩
      if task.done then (s, [])
      else
        let completedN := task.completed + 1
        if completedN ≥ task.estimated then
          ({ s with
              tasks := s.tasks.set idx
                { task with completed := completedN, done := true },
              current_task_index := none },
            [Event.notifyTaskCompleted task.text, Event.saveData])
        else
          ({ s with
              tasks := s.tasks.set idx { task with completed := completedN } },
            [Event.saveData])
    else (s, [])

/-- Model of `_advance_state_machine` (pomotodo.py:539-557): stop the timer; from
`pomodoro` credit the active task, bump the cycle counter, and go to
`long_break` when the counter divides the interval, else `short_break`; from
a break go back to `pomodoro`, zeroing the counter when leaving `long_break`.
Finally `_update_ui_for_state` resets the countdown for the new phase. -/
def advance_state_machine (s : AppState) : AppState × List Event :=
  let s1 := toggle_timer_off_if_running s
  let previous_state := s1.current_state
  if previous_state = Phase.pomodoro then
    let (s2, evs) := update_task_progress s1
    let s3 := { s2 with
      completed_pomodoros_in_cycle := s2.completed_pomodoros_in_cycle + 1 }
    let s4 :=
      if s3.completed_pomodoros_in_cycle % s3.long_break_interval = 0 then
        { s3 with current_state := Phase.long_break }
      else
        { s3 with current_state := Phase.short_break }
    (update_ui_for_state s4, evs)
  else
    let s2 := { s1 with current_state := Phase.pomodoro }
    let s3 :=
      if previous_state = Phase.long_break then
        { s2 with completed_pomodoros_in_cycle := 0 }
      else s2
    (update_ui_for_state s3, [])

/-- The sound media chosen in `_update_timer` / `_skip_current_phase`:
`focus_end_media` when the current state is `pomodoro`, else
`break_end_media`. -/
def soundCueFor (p : Phase) : SoundCue :=
  if p = Phase.pomodoro then SoundCue.focus_end else SoundCue.break_end

/-- Model of `_update_timer` (pomotodo.py:608-622), the 1-second tick callback: while
`current_time_left > 0` it only decrements the countdown (and repaints the
label); once the callback fires with the countdown already at 0 it plays the
end-of-phase sound, stops the timer and advances the state machine. -/
def update_timer (s : AppState) : AppState × List Event :=
  if s.current_time_left > 0 then
    ({ s with current_time_left := s.current_time_left - 1 }, [])
  else
    let cue := soundCueFor s.current_state
    let s1 := { s with is_running := false }
    let (s2, evs) := advance_state_machine s1
    (s2, Event.playSound cue :: evs)

/-- Python's `str.strip()` on the characters that can occur here: drop ASCII
whitespace (space, tab, newline, carriage return, form feed, vertical tab)
from both ends of the string. -/
def isPyWhitespace (c : Char) : Bool :=
  c = ' ' || c = '\t' || c = '\n' || c = '\r' || c = '\x0c' || c = '\x0b'

/-- Model of `text.strip()` as used by `_add_task` and `EditTaskDialog.get_data`. -/
def pyStrip (s : String) : String :=
  ⟨((s.data.dropWhile isPyWhitespace).reverse.dropWhile isPyWhitespace).reverse⟩

/-- Model of `_add_task` (pomotodo.py:412-427): strip the entered text; if it is empty,
return without doing anything; otherwise append a task with the entered
estimate, `completed = 0`, `done = False`, refresh the list and save. -/
def add_task (s : AppState) (text : String) (estimated : Nat) :
    AppState × List Event :=
  let task_text := pyStrip text
  if task_text = "" then (s, [])
  else
    ({ s with tasks := s.tasks ++
        [{ text := task_text, estimated := estimated, completed := 0,
           done := false }] },
      [Event.saveData])

/-- Model of `_edit_selected_task` (pomotodo.py:457-476), on the accepted-dialog path:
`new_text` and `new_est` are what `EditTaskDialog.get_data` returns (the text
already stripped).  Out-of-range rows are ignored; empty text pops a warning
and aborts; otherwise text and estimate are updated, and a done task whose
`completed` is below the new estimate is reopened; then save. -/
def edit_selected_task (s : AppState) (row : Nat) (new_text : String)
    (new_est : Nat) : AppState × List Event :=
  if h : row < s.tasks.length then
    if new_text = "" then (s, [Event.validationWarning])
    else
      let task := s.tasks.get ⟨row, h⟩
      let task1 := { task with text := new_text, estimated := new_est }
      let task2 :=
        if task1.done ∧ task1.completed < new_est then
          { task1 with done := false }
        else task1
      ({ s with tasks := s.tasks.set row task2 }, [Event.saveData])
  else (s, [])

/-- One iteration of the deletion loop in `_delete_selected_tasks`
(pomotodo.py:495-502): skip rows out of range; clear the active index when it
equals the row being removed; `del self.tasks[row]`. -/
def deleteRow (s : AppState) (row : Nat) : AppState :=
  if row < s.tasks.length then
    let s1 :=
      if s.current_task_index = some row then
        { s with current_task_index := none }
      else s
    { s1 with tasks := s1.tasks.eraseIdx row }
  else s

/-- Model of `_delete_selected_tasks` (pomotodo.py:478-504), after the user confirms:
`selected_rows` are the rows of the selected items.  If nothing is selected
the method returns at once; otherwise the rows are sorted in descending order
(`sorted(..., reverse=True)`, modelled by insertion sort on `≥`), each is
deleted in turn, and the result is saved. -/
def delete_selected_tasks (s : AppState) (selected_rows : List Nat) :
    AppState × List Event :=
  if selected_rows = [] then (s, [])
  else
    let rows_to_delete := List.insertionSort (fun a b => a ≥ b) selected_rows
    (rows_to_delete.foldl deleteRow s, [Event.saveData])

/-!
## The drag-reorder pipeline (`drag_task.py` with `_update_task_list_display`)

`_update_task_list_display` (pomotodo.py:429-441) stores, as the
`Qt.ItemDataRole.UserRole` payload of the list item at row `i`, the *integer*
`i` (`list_item.setData(Qt.ItemDataRole.UserRole, i)`).
`DraggableListWidget.dropEvent` (drag_task.py:16-37) then rebuilds
`self.tasks_ref` from those very payloads after a drag.  Because Python is
dynamically typed, the payload read back can be an integer even where a task
dict was intended, so the payload type is the sum `ItemData`. -/
inductive ItemData where
  /-- A task dict. -/
  | taskDict (t : Task)
  /-- A Python `int`. -/
  | intData (n : Nat)
deriving Repr, DecidableEq

/-- The `UserRole` payloads set by `_update_task_list_display`: item `i`
carries the integer `i`. -/
def displayItemData (tasks : List Task) : List ItemData :=
  (List.range tasks.length).map ItemData.intData

/-- Model of `dropEvent` after Qt has visually moved the items: `perm` lists, in the
new visual order, the original rows of the items; each item still carries the
`UserRole` payload it was given.  The method collects those payloads into
`new_tasks_order` and replaces the contents of `tasks_ref` with them, then
saves.  It never touches `current_task_index`. -/
def dropEventNewTasks (itemData : List ItemData) (perm : List Nat) :
    List ItemData :=
  perm.filterMap (fun i => itemData.get? i)

/-- The net effect, on `(tasks, current_task_index)`, of displaying the task
list and then drag-reordering it with permutation `perm`: the task list's
contents become the collected `UserRole` payloads (integers), and the active
index is left untouched. -/
def reorderViaDrag (tasks : List Task) (idx : Option Nat) (perm : List Nat) :
    List ItemData × Option Nat :=
  (dropEventNewTasks (displayItemData tasks) perm, idx)

/-!
## Specification-side characterizations

`keepFrom` and `idxAfter` describe, positionally, what a batch deletion is
supposed to leave behind; they are *not* how the code computes (the code
erases one index at a time on a shrinking list).  The deletion theorems relate
the two. -/

/-- The sublist of `l` whose positions (counted from `j`) are *not* listed in
`rows`. -/
def keepFrom (rows : List Nat) : Nat → List Task → List Task
  | _, [] => []
  | j, t :: ts =>
    if j ∈ rows then keepFrom rows (j + 1) ts
    else t :: keepFrom rows (j + 1) ts

/-- What becomes of the active-task index when the positions in `rows` are
deleted: cleared when its position is deleted, its numeric value kept
otherwise. -/
def idxAfter : Option Nat → List Nat → Option Nat
  | none, _ => none
  | some i, rows => if i ∈ rows then none else some i

/-!
## Concrete sample data for witnesses and counterexamples -/

/-- A fresh session with default durations (25/5/15 minutes in seconds,
interval 4) and an empty task list: the state right after startup. -/
def baseState : AppState :=
  { tasks := [], current_task_index := none, current_state := Phase.pomodoro,
    current_time_left := 1500, is_running := false,
    completed_pomodoros_in_cycle := 0, focus_time := 1500,
    short_break_time := 300, long_break_time := 900, long_break_interval := 4 }

/-- Sample task used in witnesses. -/
def tA : Task := { text := "alpha", estimated := 1, completed := 0, done := false }

/-- Sample task used in witnesses. -/
def tB : Task := { text := "beta", estimated := 2, completed := 1, done := false }

/-- Sample task used in witnesses. -/
def tC : Task := { text := "gamma", estimated := 3, completed := 2, done := false }

/-- Witness state for the focus-advance theorem: one active unfinished task,
three focus phases already completed in the cycle. -/
def swC1 : AppState :=
  { baseState with tasks := [tB], current_task_index := some 0,
                   completed_pomodoros_in_cycle := 3 }

/-- Witness state for the crediting theorem: active task with
`estimated = 3, completed = 2` (the spec's own example). -/
def swC2 : AppState :=
  { baseState with tasks := [tC], current_task_index := some 0 }

/-- Witness state for the tick theorem, countdown still positive. -/
def swC3a : AppState := { baseState with current_time_left := 5 }

/-- Witness state for the tick theorem, countdown already at zero. -/
def swC3b : AppState :=
  { baseState with current_time_left := 0, is_running := true }

/-- Witness state for the cycle-counter theorem. -/
def swC4 : AppState := { baseState with completed_pomodoros_in_cycle := 3 }

/-- Witness state for the deletion theorem: three tasks, the middle one
active. -/
def swC6 : AppState :=
  { baseState with tasks := [tA, tB, tC], current_task_index := some 1 }

/-- Witness state for the edit theorem: a single done task with
`completed = 3, estimated = 3` (the spec's own example). -/
def swC7 : AppState :=
  { baseState with
    tasks := [{ text := "delta", estimated := 3, completed := 3, done := true }] }

/-- Witness state for the tick frame theorem: running, full countdown. -/
def swC9 : AppState := { baseState with is_running := true }

/-- Witness state for the stale-index theorem: one task, index 5. -/
def swC10 : AppState :=
  { baseState with tasks := [tA], current_task_index := some 5 }

/-!
## Frame lemmas -/

theorem toggle_is_running (s : AppState) :
    (toggle_timer_off_if_running s).is_running = false := by
  unfold toggle_timer_off_if_running
  split
  · rfl
  · simp_all

theorem toggle_frame (s : AppState) :
    (toggle_timer_off_if_running s).tasks = s.tasks
    ∧ (toggle_timer_off_if_running s).current_task_index = s.current_task_index
    ∧ (toggle_timer_off_if_running s).current_state = s.current_state
    ∧ (toggle_timer_off_if_running s).current_time_left = s.current_time_left
    ∧ (toggle_timer_off_if_running s).completed_pomodoros_in_cycle
        = s.completed_pomodoros_in_cycle
    ∧ (toggle_timer_off_if_running s).focus_time = s.focus_time
    ∧ (toggle_timer_off_if_running s).short_break_time = s.short_break_time
    ∧ (toggle_timer_off_if_running s).long_break_time = s.long_break_time
    ∧ (toggle_timer_off_if_running s).long_break_interval
        = s.long_break_interval := by
  unfold toggle_timer_off_if_running
  split <;> simp

/-- Frame: `_update_task_progress` touches only `tasks` and `current_task_index`. -/
theorem update_task_progress_frame (s : AppState) :
    (update_task_progress s).1.current_state = s.current_state
    ∧ (update_task_progress s).1.current_time_left = s.current_time_left
    ∧ (update_task_progress s).1.is_running = s.is_running
    ∧ (update_task_progress s).1.completed_pomodoros_in_cycle
        = s.completed_pomodoros_in_cycle
    ∧ (update_task_progress s).1.focus_time = s.focus_time
    ∧ (update_task_progress s).1.short_break_time = s.short_break_time
    ∧ (update_task_progress s).1.long_break_time = s.long_break_time
    ∧ (update_task_progress s).1.long_break_interval = s.long_break_interval := by
  unfold update_task_progress
  rcases h : s.current_task_index with _ | idx
  · simp
  · by_cases hlt : idx < s.tasks.length
    · simp only [hlt, dif_pos]
      split
      · simp
      · split <;> simp
    · simp [hlt]

/-- Frame: `_update_task_progress` never reads `is_running`. -/
theorem update_task_progress_set_running (s : AppState) (b : Bool) :
    update_task_progress { s with is_running := b } =
      ({ (update_task_progress s).1 with is_running := b },
        (update_task_progress s).2) := by
  unfold update_task_progress
  rcases h : s.current_task_index with _ | idx
  · simp [h]
  · by_cases hlt : idx < s.tasks.length
    · simp only [hlt, dif_pos]
      split
      · simp [h]
      · split <;> simp [h]
    · simp [hlt, h]

theorem update_task_progress_toggle (s : AppState) :
    (update_task_progress (toggle_timer_off_if_running s)).1.tasks
        = (update_task_progress s).1.tasks
    ∧ (update_task_progress (toggle_timer_off_if_running s)).1.current_task_index
        = (update_task_progress s).1.current_task_index
    ∧ (update_task_progress (toggle_timer_off_if_running s)).2
        = (update_task_progress s).2 := by
  unfold toggle_timer_off_if_running
  split
  · rw [update_task_progress_set_running]
    simp
  · simp

theorem durationFor_congr (s s' : AppState)
    (hf : s'.focus_time = s.focus_time)
    (hs : s'.short_break_time = s.short_break_time)
    (hl : s'.long_break_time = s.long_break_time) :
    durationFor s' = durationFor s := by
  funext p
  cases p <;> simp [durationFor, hf, hs, hl]

/-- After any `_advance_state_machine` call the timer is stopped. -/
theorem advance_is_running_false (s : AppState) :
    (advance_state_machine s).1.is_running = false := by
  rcases hp : update_task_progress (toggle_timer_off_if_running s) with ⟨s2, evs⟩
  have hrun : s2.is_running = false := by
    have hfr := (update_task_progress_frame (toggle_timer_off_if_running s)).2.2.1
    rw [hp] at hfr
    rw [hfr, toggle_is_running]
  by_cases hb : (toggle_timer_off_if_running s).current_state = Phase.pomodoro
  · by_cases hm :
        (s2.completed_pomodoros_in_cycle + 1) % s2.long_break_interval = 0
    · simp [advance_state_machine, hb, hp, hm, update_ui_for_state, hrun]
    · simp [advance_state_machine, hb, hp, hm, update_ui_for_state, hrun]
  · by_cases hl : (toggle_timer_off_if_running s).current_state = Phase.long_break
    · simp [advance_state_machine, hb, hl, update_ui_for_state,
        toggle_is_running]
    · simp [advance_state_machine, hb, hl, update_ui_for_state,
        toggle_is_running]

/-- Exact description of `_advance_state_machine` from the `pomodoro` phase. -/
theorem advance_from_focus_eq (s : AppState)
    (h : s.current_state = Phase.pomodoro) :
    advance_state_machine s =
      (let s2 := (update_task_progress (toggle_timer_off_if_running s)).1
       let st :=
         if (s2.completed_pomodoros_in_cycle + 1) % s2.long_break_interval = 0
         then Phase.long_break else Phase.short_break
       ({ s2 with
            completed_pomodoros_in_cycle := s2.completed_pomodoros_in_cycle + 1,
            current_state := st,
            current_time_left := durationFor s2 st },
        (update_task_progress (toggle_timer_off_if_running s)).2)) := by
  have h1 : (toggle_timer_off_if_running s).current_state = Phase.pomodoro := by
    rw [(toggle_frame s).2.2.1, h]
  rcases hp : update_task_progress (toggle_timer_off_if_running s) with ⟨s2, evs⟩
  by_cases hm :
      (s2.completed_pomodoros_in_cycle + 1) % s2.long_break_interval = 0
  · simp [advance_state_machine, h1, hp, hm, update_ui_for_state, durationFor]
  · simp [advance_state_machine, h1, hp, hm, update_ui_for_state, durationFor]

/-- C1: `advance()` from the `focus` phase credits the active task exactly as
`credit_active_task()` does (same resulting tasks, same active-index change,
same side effects), increments the cycle counter by one, routes to
`long_break` exactly when the incremented counter is a multiple of
`long_break_interval` and to `short_break` otherwise, and enters the new
phase with `time_remaining` equal to that phase's configured duration and the
timer stopped. -/
theorem advance_from_focus_spec (s : AppState)
    (h : s.current_state = Phase.pomodoro) :
    (advance_state_machine s).1.tasks = (update_task_progress s).1.tasks
    ∧ (advance_state_machine s).1.current_task_index
        = (update_task_progress s).1.current_task_index
    ∧ (advance_state_machine s).2 = (update_task_progress s).2
    ∧ (advance_state_machine s).1.completed_pomodoros_in_cycle
        = s.completed_pomodoros_in_cycle + 1
    ∧ ((advance_state_machine s).1.current_state = Phase.long_break ↔
        (s.completed_pomodoros_in_cycle + 1) % s.long_break_interval = 0)
    ∧ ((advance_state_machine s).1.current_state = Phase.short_break ↔
        ¬ (s.completed_pomodoros_in_cycle + 1) % s.long_break_interval = 0)
    ∧ (advance_state_machine s).1.current_time_left
        = durationFor s (advance_state_machine s).1.current_state
    ∧ (advance_state_machine s).1.is_running = false := by
  obtain ⟨ht_tasks, ht_idx, ht_cs, ht_tl, ht_cc, ht_f, ht_sb, ht_lb, ht_li⟩ :=
    toggle_frame s
  obtain ⟨hu_cs, hu_tl, hu_run, hu_cc, hu_f, hu_sb, hu_lb, hu_li⟩ :=
    update_task_progress_frame (toggle_timer_off_if_running s)
  obtain ⟨hT_tasks, hT_idx, hT_ev⟩ := update_task_progress_toggle s
  have hcc : (update_task_progress (toggle_timer_off_if_running s)).1.completed_pomodoros_in_cycle
      = s.completed_pomodoros_in_cycle := by rw [hu_cc, ht_cc]
  have hli : (update_task_progress (toggle_timer_off_if_running s)).1.long_break_interval
      = s.long_break_interval := by rw [hu_li, ht_li]
  have hrun : (update_task_progress (toggle_timer_off_if_running s)).1.is_running
      = false := by rw [hu_run, toggle_is_running]
  have hdf : durationFor (update_task_progress (toggle_timer_off_if_running s)).1
      = durationFor s :=
    durationFor_congr s _ (by rw [hu_f, ht_f]) (by rw [hu_sb, ht_sb])
      (by rw [hu_lb, ht_lb])
  rw [advance_from_focus_eq s h]
  by_cases hmod :
      (s.completed_pomodoros_in_cycle + 1) % s.long_break_interval = 0
  · have hmod2 :
        ((update_task_progress (toggle_timer_off_if_running s)).1.completed_pomodoros_in_cycle + 1)
          % (update_task_progress (toggle_timer_off_if_running s)).1.long_break_interval = 0 := by
      rw [hcc, hli]; exact hmod
    simp [hmod2, hmod, hcc, hli, hrun, hdf, hT_tasks, hT_idx, hT_ev]
  · have hmod2 :
        ¬ ((update_task_progress (toggle_timer_off_if_running s)).1.completed_pomodoros_in_cycle + 1)
          % (update_task_progress (toggle_timer_off_if_running s)).1.long_break_interval = 0 := by
      rw [hcc, hli]; exact hmod
    simp [hmod2, hmod, hcc, hli, hrun, hdf, hT_tasks, hT_idx, hT_ev]

/-!
## The deletion loop -/

theorem keepFrom_all_lt (rows : List Nat) (l : List Task) :
    ∀ j, (∀ x ∈ rows, x < j) → keepFrom rows j l = l := by
  induction l with
  | nil => intro j _; rfl
  | cons t ts ih =>
    intro j h
    have hj : j ∉ rows := fun hm => absurd (h j hm) (lt_irrefl j)
    simp [keepFrom, hj, ih (j + 1) (fun x hx => Nat.lt_succ_of_lt (h x hx))]

theorem keepFrom_eraseIdx (rest : List Nat) (r : Nat) :
    ∀ (l : List Task) (j : Nat), j ≤ r → r < j + l.length →
      (∀ x ∈ rest, x < r) →
      keepFrom rest j (l.eraseIdx (r - j)) = keepFrom (r :: rest) j l := by
  intro l
  induction l with
  | nil =>
    intro j _ h2 _
    simp at h2
    omega
  | cons t ts ih =>
    intro j h1 h2 h3
    rcases Nat.eq_or_lt_of_le h1 with heq | hlt
    · subst heq
      have h3' : ∀ x ∈ rest, x < j := h3
      have h3'' : ∀ x ∈ j :: rest, x < j + 1 := by
        intro x hx
        rcases List.mem_cons.mp hx with hx | hx
        · omega
        · have := h3' x hx; omega
      simp only [Nat.sub_self, List.eraseIdx]
      rw [keepFrom_all_lt rest ts j h3']
      have hjmem : j ∈ j :: rest := List.mem_cons_self j rest
      simp only [keepFrom, if_pos hjmem]
      rw [keepFrom_all_lt (j :: rest) ts (j + 1) h3'']
    · have hr : r - j = (r - (j + 1)) + 1 := by omega
      rw [hr]
      simp only [List.eraseIdx]
      have hjr : j ≠ r := Nat.ne_of_lt hlt
      have hmem : (j ∈ r :: rest) ↔ (j ∈ rest) := by
        simp [List.mem_cons, hjr]
      have hih := ih (j + 1) (by omega)
        (by simp at h2 ⊢; omega) h3
      by_cases hj : j ∈ rest
      · simp only [keepFrom, if_pos hj, if_pos (hmem.mpr hj), hih]
      · simp only [keepFrom, if_neg hj, if_neg (fun hc => hj (hmem.mp hc)), hih]

/-- The deletion loop of `_delete_selected_tasks`, run on strictly descending
in-bounds rows, removes exactly the tasks at those positions and clears the
active index exactly when its position is among them. -/
theorem foldl_deleteRow_eq (rows : List Nat) :
    ∀ s : AppState, List.Pairwise (· > ·) rows →
      (∀ x ∈ rows, x < s.tasks.length) →
      rows.foldl deleteRow s =
        { s with tasks := keepFrom rows 0 s.tasks,
                 current_task_index := idxAfter s.current_task_index rows } := by
  induction rows with
  | nil =>
    intro s _ _
    rw [List.foldl_nil, keepFrom_all_lt [] s.tasks 0 (by simp)]
    cases h : s.current_task_index
    · simp only [idxAfter]
      rw [← h]
    · simp only [idxAfter, List.not_mem_nil, if_false, ite_false]
      rw [← h]
  | cons r rest ih =>
    intro s hpw hb
    have hrlen : r < s.tasks.length := hb r (List.mem_cons_self r rest)
    have hrest_lt : ∀ x ∈ rest, x < r := (List.pairwise_cons.mp hpw).1
    have step : deleteRow s r =
        { s with
          tasks := s.tasks.eraseIdx r,
          current_task_index :=
            if s.current_task_index = some r then none
            else s.current_task_index } := by
      unfold deleteRow
      rw [if_pos hrlen]
      by_cases hi : s.current_task_index = some r <;> simp [hi]
    have hlen1 : (s.tasks.eraseIdx r).length + 1 = s.tasks.length :=
      List.length_eraseIdx_add_one hrlen
    rw [List.foldl_cons, step,
      ih _ (List.pairwise_cons.mp hpw).2
        (by
          intro x hx
          show x < (s.tasks.eraseIdx r).length
          have := hrest_lt x hx
          omega)]
    have htasks : keepFrom rest 0 (s.tasks.eraseIdx r)
        = keepFrom (r :: rest) 0 s.tasks := by
      have := keepFrom_eraseIdx rest r s.tasks 0 (Nat.zero_le r)
        (by omega) hrest_lt
      simpa using this
    have hidx : idxAfter
        (if s.current_task_index = some r then none else s.current_task_index)
        rest = idxAfter s.current_task_index (r :: rest) := by
      rcases h : s.current_task_index with _ | i
      · simp [idxAfter]
      · by_cases hir : i = r
        · subst hir
          simp [idxAfter]
        · have hne : ¬ (some i = some r) := by simp [hir]
          simp [idxAfter, hne, List.mem_cons, hir]
    rw [htasks, hidx]

theorem keepFrom_congr (rows₁ rows₂ : List Nat)
    (h : ∀ x, x ∈ rows₁ ↔ x ∈ rows₂) :
    ∀ (j : Nat) (l : List Task), keepFrom rows₁ j l = keepFrom rows₂ j l := by
  intro j l
  induction l generalizing j with
  | nil => rfl
  | cons t ts ih =>
    by_cases hj : j ∈ rows₁
    · simp only [keepFrom, if_pos hj, if_pos ((h j).mp hj), ih]
    · simp only [keepFrom, if_neg hj, if_neg (fun hc => hj ((h j).mpr hc)), ih]

theorem idxAfter_congr (rows₁ rows₂ : List Nat)
    (h : ∀ x, x ∈ rows₁ ↔ x ∈ rows₂) (idx : Option Nat) :
    idxAfter idx rows₁ = idxAfter idx rows₂ := by
  rcases idx with _ | i
  · rfl
  · simp only [idxAfter, h i]

/-- Behavior of `_advance_state_machine` from a break phase: back to `pomodoro`, with the
cycle counter zeroed exactly when the break left behind was the long one. -/
theorem advance_from_break (s : AppState)
    (h : ¬ s.current_state = Phase.pomodoro) :
    (advance_state_machine s).1.current_state = Phase.pomodoro
    ∧ (advance_state_machine s).1.completed_pomodoros_in_cycle
        = (if s.current_state = Phase.long_break then 0
           else s.completed_pomodoros_in_cycle)
    ∧ (advance_state_machine s).2 = [] := by
  obtain ⟨_, _, ht_cs, _, ht_cc, _, _, _, _⟩ := toggle_frame s
  have h1 : ¬ (toggle_timer_off_if_running s).current_state = Phase.pomodoro := by
    rw [ht_cs]; exact h
  by_cases hl : s.current_state = Phase.long_break
  · have hl1 : (toggle_timer_off_if_running s).current_state
        = Phase.long_break := by rw [ht_cs]; exact hl
    simp [advance_state_machine, h1, hl1, hl, update_ui_for_state]
  · have hl1 : ¬ (toggle_timer_off_if_running s).current_state
        = Phase.long_break := by rw [ht_cs]; exact hl
    simp [advance_state_machine, h1, hl1, hl, update_ui_for_state, ht_cc]

/-- C2: `credit_active_task()` — modelled by `_update_task_progress` — is a
no-op (no state change, no popup, no save) when the active-task index is
unset or the referenced task is already done; otherwise it increments the
referenced task's `completed`, and when the new `completed` reaches
`estimated` it also marks the task done, fires the task-completed
notification and clears the active index, so that an immediately following
call is a no-op. -/
theorem credit_active_task_spec (s : AppState) :
    (s.current_task_index = none → update_task_progress s = (s, []))
    ∧ ∀ (i : Nat) (hlt : i < s.tasks.length), s.current_task_index = some i →
        (s.tasks[i].done = true → update_task_progress s = (s, []))
        ∧ (s.tasks[i].done = false →
            s.tasks[i].completed + 1 ≥ s.tasks[i].estimated →
              update_task_progress s =
                ({ s with
                    tasks := s.tasks.set i
                      { s.tasks[i] with
                          completed := s.tasks[i].completed + 1,
                          done := true },
                    current_task_index := none },
                  [Event.notifyTaskCompleted s.tasks[i].text,
                    Event.saveData])
              ∧ update_task_progress (update_task_progress s).1
                  = ((update_task_progress s).1, []))
        ∧ (s.tasks[i].done = false →
            s.tasks[i].completed + 1 < s.tasks[i].estimated →
              update_task_progress s =
                ({ s with
                    tasks := s.tasks.set i
                      { s.tasks[i] with
                          completed := s.tasks[i].completed + 1 } },
                  [Event.saveData])) := by
  constructor
  · intro h
    simp [update_task_progress, h]
  · intro i hlt hsome
    refine ⟨?_, ?_, ?_⟩
    · intro hdone
      simp [update_task_progress, hsome, hlt, hdone]
    · intro hdone hge
      have heq : update_task_progress s =
          ({ s with
              tasks := s.tasks.set i
                { s.tasks[i] with
                    completed := s.tasks[i].completed + 1,
                    done := true },
              current_task_index := none },
            [Event.notifyTaskCompleted s.tasks[i].text,
              Event.saveData]) := by
        simp [update_task_progress, hsome, hlt, hdone, hge]
      refine ⟨heq, ?_⟩
      rw [heq]
      simp [update_task_progress]
    · intro hdone hlt2
      have hglt : ¬ s.tasks[i].completed + 1
          ≥ s.tasks[i].estimated := by omega
      simp [update_task_progress, hsome, hlt, hdone, hglt]

/-- C9: a tick while running with time still on the clock only decrements the
countdown: phase, running flag, cycle counter, tasks and active index are all
untouched, and no sound, popup or save is triggered. -/
theorem tick_decrement_frame (s : AppState) (hrun : s.is_running = true)
    (ht : 0 < s.current_time_left) :
    update_timer s = ({ s with current_time_left := s.current_time_left - 1 }, [])
    ∧ (update_timer s).1.current_state = s.current_state
    ∧ (update_timer s).1.is_running = s.is_running
    ∧ (update_timer s).1.completed_pomodoros_in_cycle
        = s.completed_pomodoros_in_cycle
    ∧ (update_timer s).1.tasks = s.tasks
    ∧ (update_timer s).1.current_task_index = s.current_task_index
    ∧ (update_timer s).2 = [] := by
  have h1 : update_timer s
      = ({ s with current_time_left := s.current_time_left - 1 }, []) := by
    simp [update_timer, ht]
  rw [h1]
  simp

/-- C10: a stale active-task index (pointing at or past the end of the task
list, e.g. left over after deletions) makes `credit_active_task()` a safe
no-op: no exception path, no task mutated, nothing saved. -/
theorem credit_stale_index_noop (s : AppState) (i : Nat)
    (h : s.current_task_index = some i) (hge : s.tasks.length ≤ i) :
    update_task_progress s = (s, []) := by
  have hnlt : ¬ i < s.tasks.length := Nat.not_lt.mpr hge
  simp [update_task_progress, h, hnlt]

/-- C3, counterexample: a running tick at `time_remaining = 1` decrements the
countdown to 0 but — contrary to the claim that the tick on which the
countdown reaches 0 stops the timer, plays the cue and advances — leaves the
timer running, the phase unchanged and emits no sound or save at all.  The
expiry work happens only on the *next* tick. -/
theorem tick_at_one_counterexample :
    (update_timer { baseState with current_time_left := 1, is_running := true }).1.current_time_left = 0
    ∧ (update_timer { baseState with current_time_left := 1, is_running := true }).1.is_running = true
    ∧ (update_timer { baseState with current_time_left := 1, is_running := true }).1.current_state
        = Phase.pomodoro
    ∧ (update_timer { baseState with current_time_left := 1, is_running := true }).2 = [] := by
  refine ⟨rfl, rfl, rfl, rfl⟩

/-- C3, amended: a tick with `time_remaining > 0` only decrements the
countdown; the tick that fires with `time_remaining` already 0 plays the
phase-completion cue for the phase just concluded (focus-end when it was
focus, break-end otherwise), stops the timer and invokes `advance()` — i.e.
the expiry effects happen one tick after the countdown reaches 0, not on the
tick that reaches it. -/
theorem tick_spec_amended (s : AppState) :
    (0 < s.current_time_left →
      update_timer s
        = ({ s with current_time_left := s.current_time_left - 1 }, []))
    ∧ (s.current_time_left = 0 →
        (update_timer s).1
            = (advance_state_machine { s with is_running := false }).1
        ∧ (update_timer s).2
            = Event.playSound (soundCueFor s.current_state)
              :: (advance_state_machine { s with is_running := false }).2
        ∧ (update_timer s).1.is_running = false
        ∧ (s.current_state = Phase.pomodoro →
            soundCueFor s.current_state = SoundCue.focus_end)
        ∧ (¬ s.current_state = Phase.pomodoro →
            soundCueFor s.current_state = SoundCue.break_end)) := by
  constructor
  · intro ht
    simp [update_timer, ht]
  · intro ht
    have h0 : ¬ 0 < s.current_time_left := by omega
    rcases hp : advance_state_machine { s with is_running := false }
      with ⟨s2, evs⟩
    have hrun : s2.is_running = false := by
      have := advance_is_running_false { s with is_running := false }
      rw [hp] at this
      exact this
    refine ⟨?_, ?_, ?_, ?_, ?_⟩
    · simp [update_timer, h0, hp]
    · simp [update_timer, h0, hp]
    · simp [update_timer, h0, hp, hrun]
    · intro hps
      simp [soundCueFor, hps]
    · intro hps
      simp [soundCueFor, hps]

/-- C4, counterexample: with `long_break_interval = 4` and three focus phases
already completed in the cycle, `advance()` from focus routes to the long
break, but the counter immediately after entering it is 4, not 0 as the
claim states. -/
theorem counter_on_entering_long_break_counterexample :
    (advance_state_machine { baseState with completed_pomodoros_in_cycle := 3 }).1.current_state
        = Phase.long_break
    ∧ (advance_state_machine { baseState with completed_pomodoros_in_cycle := 3 }).1.completed_pomodoros_in_cycle
        = 4
    ∧ ¬ (advance_state_machine { baseState with completed_pomodoros_in_cycle := 3 }).1.completed_pomodoros_in_cycle
        = 0 := by
  refine ⟨rfl, rfl, by decide⟩

/-- C4, amended: when `advance()` from focus routes the N-th focus completion
(N = `long_break_interval`) into `long_break`, the counter immediately after
entering the long break equals the incremented value `N` (not 0); the
counter resets to 0 on the *next* `advance()`, the one that leaves the long
break and re-enters focus. -/
theorem counter_reset_on_leaving_long_break (s : AppState)
    (h : s.current_state = Phase.pomodoro)
    (hmod : (s.completed_pomodoros_in_cycle + 1) % s.long_break_interval = 0) :
    (advance_state_machine s).1.current_state = Phase.long_break
    ∧ (advance_state_machine s).1.completed_pomodoros_in_cycle
        = s.completed_pomodoros_in_cycle + 1
    ∧ (advance_state_machine (advance_state_machine s).1).1.current_state
        = Phase.pomodoro
    ∧ (advance_state_machine (advance_state_machine s).1).1.completed_pomodoros_in_cycle
        = 0 := by
  obtain ⟨_, _, _, hcc, hlong, _, _, _⟩ := advance_from_focus_spec s h
  have hst : (advance_state_machine s).1.current_state = Phase.long_break :=
    hlong.mpr hmod
  have hnp : ¬ (advance_state_machine s).1.current_state = Phase.pomodoro := by
    rw [hst]
    intro hc
    exact Phase.noConfusion hc
  obtain ⟨hst2, hcc2, _⟩ := advance_from_break (advance_state_machine s).1 hnp
  refine ⟨hst, hcc, hst2, ?_⟩
  rw [hcc2, if_pos hst]

/-- C5: the drag-reorder pipeline evaluated at the claimed failing input.
With tasks `[tA, tB, tC]`, the active index at position 0, and a drag that
moves the first task to the last position (new visual order `[1, 2, 0]`),
`dropEvent` replaces the task list with the *integer* `UserRole` payloads
`[1, 2, 0]` — not with the task records `[tB, tC, tA]` — and leaves
`current_task_index` at 0 instead of re-indexing it to 2. -/
theorem drag_reorder_eval :
    reorderViaDrag [tA, tB, tC] (some 0) [1, 2, 0]
      = ([ItemData.intData 1, ItemData.intData 2, ItemData.intData 0], some 0)
    ∧ ¬ [ItemData.intData 1, ItemData.intData 2, ItemData.intData 0]
        = [tB, tC, tA].map ItemData.taskDict
    ∧ ¬ (some 0 : Option Nat) = some 2 := by
  refine ⟨rfl, by decide, by decide⟩

/-- C6, counterexample: with tasks `[tA, tB]` and the active index at
position 1, deleting position 0 leaves `current_task_index = some 1` on the
one-element list `[tB]` — the index now dangles (no task at position 1) even
though the active task `tB` was not among those removed, refuting the claim
that the reference never dangles or shifts. -/
theorem delete_dangling_index_counterexample :
    (delete_selected_tasks
        { baseState with tasks := [tA, tB], current_task_index := some 1 }
        [0]).1.tasks = [tB]
    ∧ (delete_selected_tasks
        { baseState with tasks := [tA, tB], current_task_index := some 1 }
        [0]).1.current_task_index = some 1
    ∧ (delete_selected_tasks
        { baseState with tasks := [tA, tB], current_task_index := some 1 }
        [0]).1.tasks.get? 1 = none := by
  refine ⟨rfl, rfl, rfl⟩

/-- C6, amended: `delete_tasks(indices)` (with distinct in-bounds indices)
removes exactly the tasks at the given positions — the descending-order
removal implements positional removal (`keepFrom`) — and afterwards
`active_task_index` is `none` exactly when the previously active *position*
was among those removed; otherwise it keeps its previous numeric value,
which, when positions before it were removed, can refer to a different task
or lie out of bounds. -/
theorem delete_selected_tasks_spec (s : AppState) (rows : List Nat)
    (hne : ¬ rows = []) (hnd : rows.Nodup)
    (hb : ∀ x ∈ rows, x < s.tasks.length) :
    (delete_selected_tasks s rows).1
      = { s with tasks := keepFrom rows 0 s.tasks,
                 current_task_index := idxAfter s.current_task_index rows }
    ∧ (delete_selected_tasks s rows).2 = [Event.saveData]
    ∧ (∀ i, s.current_task_index = some i → i ∈ rows →
        (delete_selected_tasks s rows).1.current_task_index = none)
    ∧ (∀ i, s.current_task_index = some i → ¬ i ∈ rows →
        (delete_selected_tasks s rows).1.current_task_index = some i) := by
  have hperm := List.perm_insertionSort (fun a b => a ≥ b) rows
  have hsorted := List.sorted_insertionSort (fun a b => a ≥ b) rows
  have hnd' : (List.insertionSort (fun a b => a ≥ b) rows).Nodup :=
    hperm.nodup_iff.mpr hnd
  have hgt : List.Pairwise (· > ·)
      (List.insertionSort (fun a b => a ≥ b) rows) :=
    List.Sorted.gt_of_ge hsorted hnd'
  have hmemiff : ∀ x,
      x ∈ List.insertionSort (fun a b => a ≥ b) rows ↔ x ∈ rows :=
    fun x => hperm.mem_iff
  have hb' : ∀ x ∈ List.insertionSort (fun a b => a ≥ b) rows,
      x < s.tasks.length := fun x hx => hb x ((hmemiff x).mp hx)
  have hfold := foldl_deleteRow_eq
    (List.insertionSort (fun a b => a ≥ b) rows) s hgt hb'
  have hmain : (delete_selected_tasks s rows).1
      = { s with tasks := keepFrom rows 0 s.tasks,
                 current_task_index := idxAfter s.current_task_index rows } := by
    unfold delete_selected_tasks
    rw [if_neg hne]
    simp only [hfold]
    rw [keepFrom_congr _ rows hmemiff, idxAfter_congr _ rows hmemiff]
  refine ⟨hmain, ?_, ?_, ?_⟩
  · unfold delete_selected_tasks
    rw [if_neg hne]
  · intro i hi hmem
    rw [hmain]
    simp [idxAfter, hi, hmem]
  · intro i hi hmem
    rw [hmain]
    simp [idxAfter, hi, hmem]

/-- C7: editing a done task (non-empty new text, valid row) reopens it
(`done := false`) exactly when the new estimate exceeds the stored
`completed`; editing the estimate down to at most `completed` leaves `done`
true.  Text and estimate are updated and the change is saved either way. -/
theorem edit_task_reopen_spec (s : AppState) (row : Nat)
    (hrow : row < s.tasks.length) (new_text : String) (new_est : Nat)
    (hdone : s.tasks[row].done = true) (htext : ¬ new_text = "") :
    (s.tasks[row].completed < new_est →
      edit_selected_task s row new_text new_est =
        ({ s with
            tasks := s.tasks.set row
              { text := new_text, estimated := new_est,
                completed := s.tasks[row].completed, done := false } },
          [Event.saveData]))
    ∧ (new_est ≤ s.tasks[row].completed →
      edit_selected_task s row new_text new_est =
        ({ s with
            tasks := s.tasks.set row
              { text := new_text, estimated := new_est,
                completed := s.tasks[row].completed, done := true } },
          [Event.saveData])) := by
  constructor
  · intro hcase
    simp [edit_selected_task, hrow, htext, hdone, hcase]
  · intro hcase
    have hncase : ¬ s.tasks[row].completed < new_est := by omega
    simp [edit_selected_task, hrow, htext, hdone, hncase]

/-- C8, counterexample: `add_task` with text that is empty after trimming is
a *silent* no-op — it leaves the state unchanged and emits no event at all,
in particular no validation-error notification to the user (contrast
`_edit_selected_task`, which does pop a warning for empty text). -/
theorem add_task_empty_silent_counterexample :
    add_task baseState ("") 2 = (baseState, [])
    ∧ add_task baseState ("   ") 2 = (baseState, []) := by
  refine ⟨rfl, rfl⟩

/-- C8, amended: `add_task` with text empty after trimming fails *silently*
(no notification event) and leaves the task sequence — indeed the whole
state — unchanged with nothing persisted; with non-empty trimmed text it
appends a task with that text, the given estimate, `completed = 0` and
`done = false`, and saves. -/
theorem add_task_spec (s : AppState) (text : String) (est : Nat) :
    (pyStrip text = "" → add_task s text est = (s, []))
    ∧ (¬ pyStrip text = "" →
        (add_task s text est).1.tasks
            = s.tasks ++ [{ text := pyStrip text, estimated := est,
                            completed := 0, done := false }]
        ∧ (add_task s text est).2 = [Event.saveData]
        ∧ (add_task s text est).1.current_task_index = s.current_task_index
        ∧ (add_task s text est).1.current_state = s.current_state
        ∧ (add_task s text est).1.current_time_left = s.current_time_left) := by
  constructor
  · intro h
    simp [add_task, h]
  · intro h
    refine ⟨?_, ?_, ?_, ?_, ?_⟩ <;> simp [add_task, h]

/-!
## Witnesses: the theorems above, instantiated at concrete states -/

/-- C1 witness, at `swC1` (interval 4, counter 3, one active task). -/
theorem advance_from_focus_spec_witness :
    (advance_state_machine swC1).1.tasks = (update_task_progress swC1).1.tasks
    ∧ (advance_state_machine swC1).1.current_task_index
        = (update_task_progress swC1).1.current_task_index
    ∧ (advance_state_machine swC1).2 = (update_task_progress swC1).2
    ∧ (advance_state_machine swC1).1.completed_pomodoros_in_cycle
        = swC1.completed_pomodoros_in_cycle + 1
    ∧ ((advance_state_machine swC1).1.current_state = Phase.long_break ↔
        (swC1.completed_pomodoros_in_cycle + 1) % swC1.long_break_interval = 0)
    ∧ ((advance_state_machine swC1).1.current_state = Phase.short_break ↔
        ¬ (swC1.completed_pomodoros_in_cycle + 1) % swC1.long_break_interval = 0)
    ∧ (advance_state_machine swC1).1.current_time_left
        = durationFor swC1 (advance_state_machine swC1).1.current_state
    ∧ (advance_state_machine swC1).1.is_running = false :=
  advance_from_focus_spec swC1 rfl

/-- C2 witness, at `swC2`: crediting the `estimated = 3, completed = 2` task
completes it, fires the notification, clears the index, and the immediately
following call is a no-op. -/
theorem credit_active_task_spec_witness :
    update_task_progress swC2
      = ({ swC2 with
            tasks := [{ text := "gamma", estimated := 3, completed := 3,
                        done := true }],
            current_task_index := none },
          [Event.notifyTaskCompleted ("gamma"), Event.saveData])
    ∧ update_task_progress (update_task_progress swC2).1
        = ((update_task_progress swC2).1, []) :=
  ⟨(((credit_active_task_spec swC2).2 0 (by decide) rfl).2.1 rfl (by decide)).1,
    (((credit_active_task_spec swC2).2 0 (by decide) rfl).2.1 rfl (by decide)).2⟩

/-- C3 witness, at `swC3a` (countdown 5) and `swC3b` (countdown 0). -/
theorem tick_spec_amended_witness :
    update_timer swC3a
      = ({ swC3a with current_time_left := swC3a.current_time_left - 1 }, [])
    ∧ (update_timer swC3b).1
        = (advance_state_machine { swC3b with is_running := false }).1
    ∧ (update_timer swC3b).2
        = Event.playSound (soundCueFor swC3b.current_state)
          :: (advance_state_machine { swC3b with is_running := false }).2
    ∧ (update_timer swC3b).1.is_running = false :=
  ⟨(tick_spec_amended swC3a).1 (by decide),
    ((tick_spec_amended swC3b).2 rfl).1,
    ((tick_spec_amended swC3b).2 rfl).2.1,
    ((tick_spec_amended swC3b).2 rfl).2.2.1⟩

/-- C4 witness, at `swC4` (interval 4, counter 3): the long break is entered
with counter 4, and leaving it resets the counter to 0. -/
theorem counter_reset_on_leaving_long_break_witness :
    (advance_state_machine swC4).1.current_state = Phase.long_break
    ∧ (advance_state_machine swC4).1.completed_pomodoros_in_cycle
        = swC4.completed_pomodoros_in_cycle + 1
    ∧ (advance_state_machine (advance_state_machine swC4).1).1.current_state
        = Phase.pomodoro
    ∧ (advance_state_machine (advance_state_machine swC4).1).1.completed_pomodoros_in_cycle
        = 0 :=
  counter_reset_on_leaving_long_break swC4 rfl (by decide)

/-- C6 witness, at `swC6` with rows `[2, 0]`: tasks at positions 2 and 0 are
removed, the surviving task is `tB`, and the active index (position 1, not
deleted) keeps its numeric value 1. -/
theorem delete_selected_tasks_spec_witness :
    (delete_selected_tasks swC6 [2, 0]).1
      = { swC6 with
          tasks := keepFrom [2, 0] 0 swC6.tasks,
          current_task_index := idxAfter swC6.current_task_index [2, 0] }
    ∧ (delete_selected_tasks swC6 [2, 0]).2 = [Event.saveData]
    ∧ (delete_selected_tasks swC6 [2, 0]).1.current_task_index = some 1 :=
  ⟨(delete_selected_tasks_spec swC6 [2, 0] (by decide) (by decide)
      (by decide)).1,
    (delete_selected_tasks_spec swC6 [2, 0] (by decide) (by decide)
      (by decide)).2.1,
    (delete_selected_tasks_spec swC6 [2, 0] (by decide) (by decide)
      (by decide)).2.2.2 1 rfl (by decide)⟩

/-- C7 witness, at `swC7`: editing the done `completed = 3, estimated = 3`
task to `estimated = 5` reopens it (`done = false`). -/
theorem edit_task_reopen_spec_witness :
    edit_selected_task swC7 0 "delta" 5
      = ({ swC7 with
            tasks := [{ text := "delta", estimated := 5, completed := 3,
                        done := false }] },
          [Event.saveData]) :=
  (edit_task_reopen_spec swC7 0 (by decide) "delta" 5 rfl (by decide)).1
    (by decide)

/-- C8 witness: whitespace-only text is a silent no-op; non-empty text
appends the stripped task with `completed = 0`, `done = false`, and saves. -/
theorem add_task_spec_witness :
    add_task baseState ("\t") 1 = (baseState, [])
    ∧ (add_task baseState (" write tests ") 3).1.tasks
        = baseState.tasks ++ [{ text := pyStrip " write tests ",
                                estimated := 3, completed := 0,
                                done := false }]
    ∧ (add_task baseState (" write tests ") 3).2 = [Event.saveData] :=
  ⟨(add_task_spec baseState ("\t") 1).1 rfl,
    ((add_task_spec baseState (" write tests ") 3).2 (by decide)).1,
    ((add_task_spec baseState (" write tests ") 3).2 (by decide)).2.1⟩

/-- C9 witness, at `swC9` (running, countdown 1500). -/
theorem tick_decrement_frame_witness :
    update_timer swC9
      = ({ swC9 with current_time_left := swC9.current_time_left - 1 }, [])
    ∧ (update_timer swC9).1.current_state = swC9.current_state
    ∧ (update_timer swC9).1.is_running = swC9.is_running
    ∧ (update_timer swC9).1.completed_pomodoros_in_cycle
        = swC9.completed_pomodoros_in_cycle
    ∧ (update_timer swC9).1.tasks = swC9.tasks
    ∧ (update_timer swC9).1.current_task_index = swC9.current_task_index
    ∧ (update_timer swC9).2 = [] :=
  tick_decrement_frame swC9 rfl (by decide)

/-- C10 witness, at `swC10` (one task, stale index 5). -/
theorem credit_stale_index_noop_witness :
    update_task_progress swC10 = (swC10, []) :=
  credit_stale_index_noop swC10 5 rfl (by decide)

end Pomotodo
